import Mathlib

/-!
Verification of the substrate event pipeline.

A shallow embedding, in Lean 4, of the event ingestion / rule routing /
action execution pipeline of the `substrate` repository, together with the
scheduler spawning logic and the periodic resend sync loop.

The embedding follows the Python source:

* `substrate/domains/events/logic.py`   — condition matching (`Matching` namespace)
* `substrate/domains/events/router.py`  — `get_enabled_rules`, `route_event`,
  `process_event`, `create_event`, `_get_owner_for_inbox`
* `substrate/domains/events/actions.py` — `execute_action`, `_log_action_start`,
  `_log_action_complete`
* `substrate/core/worker/schedulers.py` — `get_running_schedulers`,
  `spawn_scheduler`, `spawn_all_schedulers`
* `substrate/integrations/resend/scheduler.py` — the `resend_scheduler` loop body

Python values arriving from JSON columns (rule `conditions`, `payload`,
`action_config`) are modelled by the scalar type `PyVal`; Python exception
behaviour of the matcher (`AttributeError` from calling `.lower()` on a
non-string, `TypeError` from `re.search` on a non-string pattern) is made
explicit with `Except PyErr`.  The Python standard library regex engine
(`re.search` with `re.IGNORECASE`) is external code and is abstracted as a
`RegexOracle` parameter; a raised `re.error` is its `.error` outcome.

The database is modelled as an explicit `Store` (events, rules, action
logs, inbox membership), and each Python function that talks to the
database becomes a function from `Store` to `Store` plus its returned
value.  `datetime.utcnow()` / `now()` are passed in as an explicit `now`
parameter; timestamps are naturals.
-/

namespace Substrate

/-- A scalar Python/JSON value, as stored in the JSON columns
(`conditions`, `action_config`, `payload`). -/
inductive PyVal where
  | null
  | bool (b : Bool)
  | int (n : Int)
  | str (s : String)
  deriving DecidableEq, Repr

/-- A Python exception escaping the matcher: `AttributeError` (calling
`.lower()` on a non-string condition value) or `TypeError` (passing a
non-string pattern to `re.search`). -/
inductive PyErr where
  | attributeError
  | typeError
  deriving DecidableEq, Repr

deriving instance DecidableEq for Except

/-- Python truthiness of a `PyVal` (`bool(v)`). -/
def PyVal.truthy : PyVal → Bool
  | .null => false
  | .bool b => b
  | .int n => n != 0
  | .str s => s != ""

/-- Python truthiness of a nullable string column value (`None` and `""`
are falsy). -/
def truthyStr : Option String → Bool
  | none => false
  | some s => s != ""

/-- Python's `str.lower()` (character-wise lowering). -/
def pyLower (s : String) : String := ⟨s.data.map Char.toLower⟩

/-- Python's substring test `sub in text`. -/
def strIn (sub text : String) : Bool := decide (sub.data <:+: text.data)

/-- Python `==` between a nullable string column value and a `PyVal`
(`None == None` is `True`; values of distinct runtime types compare
unequal). -/
def pyEqOptStr : Option String → PyVal → Bool
  | none, .null => true
  | some s, .str u => s == u
  | _, _ => false

/-- Python `==` between a (non-null) string column value and a `PyVal`. -/
def pyEqStr (s : String) : PyVal → Bool
  | .str u => s == u
  | _ => false

/-- Python `==` between a `bool` and a `PyVal` (`bool` is an `int` in
Python, so `True == 1` and `False == 0`). -/
def pyEqBool (b : Bool) : PyVal → Bool
  | .bool b' => b == b'
  | .int n => if b then n == 1 else n == 0
  | _ => false

/-- Lookup in a Python dict modelled as an association list
(`d.get(k)`, returning `None` when absent). -/
def pyGet (d : List (String × PyVal)) (k : String) : Option PyVal :=
  (d.find? (fun p => p.1 == k)).map (·.2)

/-- The behaviour of the external `re.search(pattern, text, re.IGNORECASE)`
call: `.ok b` means the search ran and `b` says whether a match was found,
`.error ()` means the pattern failed to compile (`re.error`). -/
def RegexOracle : Type := String → String → Except Unit Bool

/-- Model of `logic._contains(text, substring)`: case-insensitive containment; falsy
`text` or `substring` short-circuits to `False`; a non-string truthy
`substring` raises `AttributeError` at `substring.lower()`. -/
def pyContains (text : Option String) (v : PyVal) : Except PyErr Bool :=
  if ¬ (truthyStr text && v.truthy) then .ok false
  else match v with
    | .str sub => .ok (strIn (pyLower sub) (pyLower (text.getD "")))
    | _ => .error .attributeError

/-- Model of `logic._equals(text, value)`: case-insensitive equality; when `text` or
`value` is falsy it returns plain Python `==`; a non-string truthy `value`
raises `AttributeError` at `value.lower()`. -/
def pyEquals (text : Option String) (v : PyVal) : Except PyErr Bool :=
  if ¬ (truthyStr text && v.truthy) then .ok (pyEqOptStr text v)
  else match v with
    | .str s => .ok (pyLower (text.getD "") == pyLower s)
    | _ => .error .attributeError

/-- Model of `logic._regex_match(text, pattern)`: falsy `text` or `pattern` gives
`False`; a string pattern is handed to `re.search` and a raised `re.error`
is caught and gives `False`; a non-string truthy pattern makes `re.search`
raise `TypeError`, which `except re.error` does not catch. -/
def pyRegexMatch (re : RegexOracle) (text : Option String) (v : PyVal) :
    Except PyErr Bool :=
  if ¬ (truthyStr text && v.truthy) then .ok false
  else match v with
    | .str pat =>
      match re pat (text.getD "") with
      | .ok b => .ok b
      | .error _ => .ok false
    | _ => .error .typeError

/-- The routing result dict built by `route_event` when a rule matches
(also persisted into the event's `route_result` column). -/
structure RouteResult where
  rule_id : String
  rule_name : String
  action : String
  action_config : List (String × PyVal)
  deriving DecidableEq, Repr

/-- The matcher-relevant shape of one `events.events` row (the dict that
`route_event` / `matches_conditions` receive). -/
structure EventRow where
  id : Nat
  source : String
  source_id : Option String
  event_type : String
  payload : List (String × PyVal)
  email_from : Option String
  email_to : Option String
  email_subject : Option String
  email_body : Option String
  email_date : Option Nat
  status : String
  matched_rule_id : Option String
  route_result : Option RouteResult
  routed_at : Option Nat
  owner_id : Option String
  created_at : Nat
  updated_at : Nat
  deriving DecidableEq, Repr

/-- Model of `logic._check_condition(event, condition_type, value)`: dispatch on the
condition key; an unknown key fails closed with `False`. -/
def checkCondition (re : RegexOracle) (ev : EventRow) (k : String) (v : PyVal) :
    Except PyErr Bool :=
  if k == "from_contains" then pyContains ev.email_from v
  else if k == "from_equals" then pyEquals ev.email_from v
  else if k == "to_contains" then pyContains ev.email_to v
  else if k == "to_equals" then pyEquals ev.email_to v
  else if k == "subject_contains" then pyContains ev.email_subject v
  else if k == "subject_equals" then pyEquals ev.email_subject v
  else if k == "subject_matches" then pyRegexMatch re ev.email_subject v
  else if k == "body_contains" then pyContains ev.email_body v
  else if k == "has_attachment" then
    .ok (pyEqBool ((pyGet ev.payload "attachments").elim false PyVal.truthy) v)
  else if k == "event_type_equals" then .ok (pyEqStr ev.event_type v)
  else if k == "source_equals" then .ok (pyEqStr ev.source v)
  else .ok false

/-- Model of `logic.matches_conditions(event, conditions)`: conjunction over all
condition entries in insertion order, short-circuiting on the first
failing one; an exception raised by a single check propagates. -/
def matchesConditions (re : RegexOracle) (ev : EventRow) :
    List (String × PyVal) → Except PyErr Bool
  | [] => .ok true
  | (k, v) :: rest =>
    match checkCondition re ev k v with
    | .error e => .error e
    | .ok false => .ok false
    | .ok true => matchesConditions re ev rest

/-! ## Rules and the router (`router.py`) -/

/-- One `events.rules` row. -/
structure Rule where
  id : String
  name : String
  enabled : Bool
  priority : Int
  conditions : List (String × PyVal)
  action : String
  action_config : Option (List (String × PyVal))
  match_count : Nat
  last_matched_at : Option Nat
  created_at : Nat
  deriving DecidableEq, Repr

/-- The `ORDER BY priority DESC, created_at ASC` comparison used by
`get_enabled_rules`. -/
def ruleOrder (a b : Rule) : Prop :=
  b.priority < a.priority ∨ (a.priority = b.priority ∧ a.created_at ≤ b.created_at)

instance : DecidableRel ruleOrder := fun a b => by
  unfold ruleOrder; infer_instance

instance : IsTotal Rule ruleOrder := by
  constructor
  intro a b
  unfold ruleOrder
  rcases lt_trichotomy a.priority b.priority with h | h | h
  · exact Or.inr (Or.inl h)
  · rcases Nat.le_total a.created_at b.created_at with h' | h'
    · exact Or.inl (Or.inr ⟨h, h'⟩)
    · exact Or.inr (Or.inr ⟨h.symm, h'⟩)
  · exact Or.inl (Or.inl h)

instance : IsTrans Rule ruleOrder := by
  constructor
  intro a b c hab hbc
  unfold ruleOrder at *
  rcases hab with h | ⟨h1, h2⟩ <;> rcases hbc with h' | ⟨h1', h2'⟩
  · exact Or.inl (h'.trans h)
  · exact Or.inl (h1' ▸ h)
  · exact Or.inl (h1 ▸ h')
  · exact Or.inr ⟨h1.trans h1', h2.trans h2'⟩

/-- Model of `router.get_enabled_rules()`: the enabled rules, sorted by
`(priority DESC, created_at ASC)`.  The SQL sort is modelled by
`List.insertionSort` over `ruleOrder`. -/
def getEnabledRules (rules : List Rule) : List Rule :=
  (rules.filter (·.enabled)).insertionSort ruleOrder

/-- The result dict built by `route_event` for a matching rule
(`rule.get("action_config") or {}` turns an absent config into `{}`). -/
def toRouteResult (r : Rule) : RouteResult :=
  { rule_id := r.id
    rule_name := r.name
    action := r.action
    action_config := r.action_config.getD [] }

/-- The `for rule in rules` loop of `route_event`: first rule whose
conditions all match wins; an exception from the matcher propagates. -/
def routeFirst (re : RegexOracle) (ev : EventRow) :
    List Rule → Except PyErr (Option RouteResult)
  | [] => .ok none
  | r :: rest =>
    match matchesConditions re ev r.conditions with
    | .error e => .error e
    | .ok true => .ok (some (toRouteResult r))
    | .ok false => routeFirst re ev rest

/-- Model of `router.route_event(event)`: iterate the enabled rules in order and
return the first match, or `none`. -/
def routeEvent (re : RegexOracle) (rules : List Rule) (ev : EventRow) :
    Except PyErr (Option RouteResult) :=
  routeFirst re ev (getEnabledRules rules)

/-! ## Action execution (`actions.py`) -/

/-- The `{success: bool, error?: str}` part of a handler result dict (the
only part the router and the action log inspect; handler-specific extras
such as `note_id` or `tags_added` are not modelled). -/
structure ActionResult where
  success : Bool
  error : Option String
  deriving DecidableEq, Repr

/-- One `events.actions` audit row. -/
structure ActionLog where
  id : Nat
  event_id : Nat
  rule_id : String
  action : String
  action_input : List (String × PyVal)
  status : String
  action_output : Option ActionResult
  error : Option String
  completed_at : Option Nat
  deriving DecidableEq, Repr

/-- The database state shared by the pipeline: the `events.events`,
`events.rules` and `events.actions` tables plus the `auth` inbox lookup
(`inboxes` maps an inbox email to its member's `user_id`).  `nextEventId`
and `nextLogId` model the fresh primary keys the database generates. -/
structure Store where
  events : List EventRow
  rules : List Rule
  actionLogs : List ActionLog
  inboxes : List (String × String)
  nextEventId : Nat
  nextLogId : Nat
  deriving Repr

/-- Model of `UPDATE ... WHERE id = i` over the events table. -/
def updateEvents (evs : List EventRow) (i : Nat) (f : EventRow → EventRow) :
    List EventRow :=
  evs.map (fun e => if e.id = i then f e else e)

/-- The behaviour of the three action handlers that do outside work
(`_action_create_note`, `_action_tag`, `_action_spawn_task`): each either
returns a result dict or raises (`.error msg`); the only store mutation
any of them performs is `_action_tag`'s jsonb merge into the current
event's `route_result` column, modelled as an optional update function
of that column.  Their external effects (vault note creation, task
spawning) are outside the store.  `_action_ignore` and the
unknown-action branch are pure and modelled directly in `runHandler`. -/
structure Handlers where
  create_note : EventRow → List (String × PyVal) →
    Except String (ActionResult × Option (Option RouteResult → Option RouteResult))
  tag : Nat → List (String × PyVal) →
    Except String (ActionResult × Option (Option RouteResult → Option RouteResult))
  spawn_task : EventRow → List (String × PyVal) →
    Except String (ActionResult × Option (Option RouteResult → Option RouteResult))

/-- The dispatch block of `execute_action` (lines 41–50 of `actions.py`):
select the handler by action name; an unknown action yields a failure
result without raising. -/
def runHandler (h : Handlers) (action : String) (event_id : Nat)
    (ev : EventRow) (cfg : List (String × PyVal)) :
    Except String (ActionResult × Option (Option RouteResult → Option RouteResult)) :=
  if action == "create_note" then h.create_note ev cfg
  else if action == "tag" then h.tag event_id cfg
  else if action == "ignore" then .ok ({ success := true, error := none }, none)
  else if action == "spawn_task" then h.spawn_task ev cfg
  else .ok ({ success := false, error := some ("Unknown action: " ++ action) }, none)

/-- Model of `actions._log_action_start`: insert an `events.actions` row with
status `running` and return its fresh id. -/
def logActionStart (s : Store) (event_id : Nat) (rule_id : String)
    (action : String) (action_input : List (String × PyVal)) : Store × Nat :=
  let aid := s.nextLogId
  ({ s with
      actionLogs := s.actionLogs ++
        [{ id := aid, event_id := event_id, rule_id := rule_id,
           action := action, action_input := action_input,
           status := "running", action_output := none, error := none,
           completed_at := none }]
      nextLogId := aid + 1 }, aid)

/-- Model of `actions._log_action_complete`: update the log row to `completed`
when the result reports success and `failed` otherwise, recording the
result, error string and completion time. -/
def logActionComplete (s : Store) (action_id : Nat) (result : ActionResult)
    (error : Option String) (now : Nat) : Store :=
  { s with
      actionLogs := s.actionLogs.map (fun l =>
        if l.id = action_id then
          { l with
              status := if result.success then "completed" else "failed"
              action_output := some result
              error := error
              completed_at := some now }
        else l) }

/-- Model of `actions.execute_action`: write the `running` log row, run the
dispatched handler, catch any exception it raises, and finalise the log
row; a raised exception becomes the returned
`{success: false, error: str(e)}`. -/
def executeAction (h : Handlers) (s : Store) (event_id : Nat)
    (rule_id : String) (action : String) (cfg : List (String × PyVal))
    (ev : EventRow) (now : Nat) : Store × ActionResult :=
  let start := logActionStart s event_id rule_id action cfg
  match runHandler h action event_id ev cfg with
  | .ok (result, upd) =>
    let s2 := match upd with
      | none => start.1
      | some g =>
        { start.1 with
            events := updateEvents start.1.events event_id (fun e =>
              { e with route_result := g e.route_result }) }
    (logActionComplete s2 start.2 result none now, result)
  | .error e =>
    (logActionComplete start.1 start.2 { success := false, error := some e }
       (some e) now,
     { success := false, error := some e })

/-! ## `process_event` and `create_event` (`router.py`) -/

/-- The result dict of `process_event`. -/
inductive ProcResult where
  | err (msg : String)
  | unmatched (event_id : Nat)
  | done (status : String) (event_id : Nat) (rule_id : String)
      (action : String) (action_result : ActionResult)
  deriving DecidableEq, Repr

/-- Model of `router.process_event(event_id)`: fetch the event, guard on status,
route it, persist the routing outcome, execute the action and finalise
the event status.  A matcher exception propagates (`.error`). -/
def processEvent (re : RegexOracle) (h : Handlers) (s : Store)
    (event_id : Nat) (now : Nat) : Except PyErr (Store × ProcResult) :=
  match s.events.find? (fun r => r.id == event_id) with
  | none => .ok (s, .err "Event not found")
  | some ev =>
    if ev.status ≠ "pending" then
      .ok (s, .err ("Event already processed: " ++ ev.status))
    else
      match routeEvent re s.rules ev with
      | .error e => .error e
      | .ok none =>
        .ok ({ s with
                events := updateEvents s.events event_id (fun e =>
                  { e with status := "unmatched", routed_at := some now,
                           updated_at := now }) },
             .unmatched event_id)
      | .ok (some rr) =>
        let s1 := { s with
          events := updateEvents s.events event_id (fun e =>
            { e with matched_rule_id := some rr.rule_id,
                     route_result := some rr, routed_at := some now,
                     updated_at := now }) }
        let s2 := { s1 with
          rules := s1.rules.map (fun r =>
            if r.id = rr.rule_id then
              { r with match_count := r.match_count + 1,
                       last_matched_at := some now }
            else r) }
        let ea := executeAction h s2 event_id rr.rule_id rr.action
          rr.action_config ev now
        let newStatus := if ea.2.success then "processed" else "failed"
        .ok ({ ea.1 with
                events := updateEvents ea.1.events event_id (fun e =>
                  { e with status := newStatus, updated_at := now }) },
             .done newStatus event_id rr.rule_id rr.action ea.2)

/-- Model of `router._get_owner_for_inbox`: split the recipient list on commas and
return the user of the first address that matches a configured inbox
email (compared lowercased). -/
def getOwnerForInbox (inboxes : List (String × String))
    (email_to : Option String) : Option String :=
  if ¬ truthyStr email_to then none
  else
    ((email_to.getD "").splitOn ",").findSome? (fun part =>
      let addr := pyLower part.trim
      (inboxes.find? (fun ib => pyLower ib.1 == addr)).map (·.2))

/-- The fields of an `events.events` row matched by the
`ON CONFLICT (source, source_id)` target. -/
def sameKey (r : EventRow) (source : String) (source_id : Option String) :
    Prop :=
  r.source = source ∧ r.source_id = source_id

instance (r : EventRow) (source : String) (source_id : Option String) :
    Decidable (sameKey r source source_id) :=
  inferInstanceAs (Decidable (_ ∧ _))

/-- Model of `router.create_event`: resolve the owner from the inbox table when
absent, then upsert on `(source, source_id)`.

Modelled from the spec: the unique constraint behind the
`ON CONFLICT (source, source_id)` clause lives in the schema SQL, which
is not part of the sources; per the spec's invariant
`(source, source_id) unique — re-ingestion updates payload rather than
duplicating`, conflict detection is plain equality of the pair, the
conflicting row gets `payload = EXCLUDED.payload, updated_at = now()`,
and a fresh row starts in the schema-default status `pending`. -/
def createEvent (s : Store) (source : String) (source_id : Option String)
    (event_type : String) (payload : List (String × PyVal))
    (email_from : Option String := none) (email_to : Option String := none)
    (email_subject : Option String := none) (email_body : Option String := none)
    (email_date : Option Nat := none) (owner_id : Option String := none)
    (now : Nat := 0) : Store × EventRow :=
  let owner :=
    if owner_id = none ∧ truthyStr email_to then
      getOwnerForInbox s.inboxes email_to
    else owner_id
  match s.events.find? (fun r => decide (sameKey r source source_id)) with
  | some r =>
    let r' := { r with payload := payload, updated_at := now }
    ({ s with
        events := s.events.map (fun e =>
          if sameKey e source source_id then
            { e with payload := payload, updated_at := now }
          else e) }, r')
  | none =>
    let row : EventRow :=
      { id := s.nextEventId, source := source, source_id := source_id,
        event_type := event_type, payload := payload,
        email_from := email_from, email_to := email_to,
        email_subject := email_subject, email_body := email_body,
        email_date := email_date, status := "pending",
        matched_rule_id := none, route_result := none, routed_at := none,
        owner_id := owner, created_at := now, updated_at := now }
    ({ s with events := s.events ++ [row], nextEventId := s.nextEventId + 1 },
     row)

/-! ## Scheduler spawning (`core/worker/schedulers.py`) -/

/-- One row of an `absurd.t_<queue>` task table, as selected by
`get_running_schedulers`. -/
structure TaskRow where
  task_id : String
  task_name : String
  state : String
  deriving DecidableEq, Repr

/-- A scheduler descriptor (`SCHEDULER_CONFIG`), as collected by
`discover_schedulers`; `queue`, `singleton` and `enabled` are optional
keys read with defaults `"default"`, `True` and `True`. -/
structure SchedConfig where
  task_name : String
  queue : Option String
  params : List (String × PyVal)
  singleton : Option Bool
  enabled : Option Bool
  deriving DecidableEq, Repr

/-- The state of the durable queue tables: each queue name maps to its
table's rows, or to `none` when the table does not exist (the
`except` branch of `get_running_schedulers` skips it). -/
def QueueTables : Type := String → Option (List TaskRow)

/-- The `LIKE '%.scheduler'` pattern of the `get_running_schedulers`
query: the task name ends with `.scheduler`. -/
def likeSchedulerPattern (name : String) : Bool :=
  decide (".scheduler".data <:+ name.data)

/-- The row filter of the `get_running_schedulers` query:
`task_name LIKE '%.scheduler' AND state IN ('pending','running','sleeping')`. -/
def activeSchedRow (r : TaskRow) : Bool :=
  likeSchedulerPattern r.task_name &&
    (r.state == "pending" || r.state == "running" || r.state == "sleeping")

/-- Model of `running[task_name] = row` on a Python dict modelled as an
association list: replace in place, or append. -/
def dictInsert (d : List (String × TaskRow)) (k : String) (v : TaskRow) :
    List (String × TaskRow) :=
  match d with
  | [] => [(k, v)]
  | (k', v') :: rest =>
    if k' = k then (k, v) :: rest else (k', v') :: dictInsert rest k v

/-- The three queue lanes whose tables `get_running_schedulers`
hard-codes. -/
def schedulerQueues : List String := ["default", "obsidian", "email"]

/-- Model of `schedulers.get_running_schedulers()`: for each of the three
hard-coded queues, collect the active `%.scheduler` rows into a dict
keyed by task name. -/
def getRunningSchedulers (env : QueueTables) : List (String × TaskRow) :=
  schedulerQueues.foldl (fun running q =>
    (((env q).getD []).filter activeSchedRow).foldl
      (fun d r => dictInsert d r.task_name r) running) []

/-- The result dict of `spawn_scheduler` / one entry of
`spawn_all_schedulers` (only the keys the source puts in each dict are
`some`). -/
structure SpawnResult where
  spawned : Bool
  reason : Option String
  task_name : Option String
  queue : Option String
  task_id : Option String
  deriving DecidableEq, Repr

/-- Model of `schedulers.spawn_scheduler(config)`: for a singleton descriptor,
skip with `already_running` when its task name is in the running dict;
otherwise call `absurd.spawn` (an external call whose fresh task id is
the `fresh` parameter) on the declared queue. -/
def spawnScheduler (env : QueueTables) (fresh : String)
    (config : SchedConfig) : SpawnResult :=
  let task_name := config.task_name
  let queue := config.queue.getD "default"
  let singleton := config.singleton.getD true
  let skip :=
    if singleton then
      (getRunningSchedulers env).find? (fun p => p.1 == task_name)
    else none
  match skip with
  | some p =>
    { spawned := false, reason := some "already_running",
      task_name := none, queue := none, task_id := some p.2.task_id }
  | none =>
    { spawned := true, reason := none, task_name := some task_name,
      queue := some queue, task_id := some fresh }

/-- The per-descriptor body of the `spawn_all_schedulers` loop: a
disabled descriptor is skipped with reason `disabled`, any other is
handed to `spawn_scheduler`. -/
def spawnOne (env : QueueTables) (fresh : String → String)
    (config : SchedConfig) : SpawnResult :=
  if ¬ config.enabled.getD true then
    { spawned := false, reason := some "disabled", task_name := none,
      queue := none, task_id := none }
  else spawnScheduler env (fresh config.task_name) config

/-- Model of `schedulers.spawn_all_schedulers()`, applied to the discovered
descriptor list: one result per descriptor, in order. -/
def spawnAllSchedulers (env : QueueTables) (fresh : String → String)
    (configs : List SchedConfig) : List SpawnResult :=
  configs.map (spawnOne env fresh)

/-! ## The resend periodic sync loop (`integrations/resend/scheduler.py`) -/

/-- One iteration of the `while True` loop of `resend_scheduler`, given
whether this iteration's sync step reported an error: it returns the
seconds handed to `ctx.sleep_for` and the new `consecutive_errors`
counter.  On error the counter is incremented first and the backoff is
`min(interval_seconds * 2 ** consecutive_errors, max_interval_seconds)`
with the incremented counter; on success the counter resets to 0 and the
sleep is `interval_seconds`. -/
def resendSchedulerStep (interval_seconds max_interval_seconds : Nat)
    (isError : Bool) (consecutive_errors : Nat) : Nat × Nat :=
  if isError then
    let e := consecutive_errors + 1
    (min (interval_seconds * 2 ^ e) max_interval_seconds, e)
  else
    (interval_seconds, 0)

/-- Run the loop over a list of per-iteration sync outcomes
(`true` = that iteration's sync reported an error), collecting the
slept durations and the final error counter. -/
def resendSchedulerRun (interval_seconds max_interval_seconds : Nat) :
    List Bool → Nat → List Nat × Nat
  | [], e => ([], e)
  | o :: rest, e =>
    let step := resendSchedulerStep interval_seconds max_interval_seconds o e
    let next := resendSchedulerRun interval_seconds max_interval_seconds rest step.2
    (step.1 :: next.1, next.2)

/-! ## Shared fixtures for concrete evaluations -/

/-- A regex oracle whose searches always complete and find nothing;
inputs that never reach the regex engine give the same result under any
oracle. -/
def reStub : RegexOracle := fun _ _ => .ok false

/-- Handlers that always succeed without touching the event row. -/
def okHandlers : Handlers :=
  { create_note := fun _ _ => .ok ({ success := true, error := none }, none)
    tag := fun _ _ => .ok ({ success := true, error := none }, none)
    spawn_task := fun _ _ => .ok ({ success := true, error := none }, none) }

/-- A concrete email event row used in witnesses and counterexamples. -/
def sampleEvent : EventRow :=
  { id := 1, source := "email", source_id := some "m1",
    event_type := "email.received", payload := [],
    email_from := some "Alice@X.com", email_to := some "support@x.com",
    email_subject := some "Help", email_body := some "please help",
    email_date := none, status := "pending", matched_rule_id := none,
    route_result := none, routed_at := none, owner_id := none,
    created_at := 0, updated_at := 0 }

/-- A low-priority rule matching on the recipient. -/
def ruleLow : Rule :=
  { id := "r-low", name := "support tag", enabled := true, priority := 5,
    conditions := [("to_contains", PyVal.str "support@")], action := "tag",
    action_config := some [("tags", PyVal.str "support")], match_count := 0,
    last_matched_at := none, created_at := 0 }

/-- A high-priority rule matching on the subject. -/
def ruleHigh : Rule :=
  { id := "r-high", name := "help note", enabled := true, priority := 10,
    conditions := [("subject_contains", PyVal.str "help")],
    action := "create_note", action_config := none, match_count := 0,
    last_matched_at := none, created_at := 1 }

/-! ## C4 — backoff arithmetic of the resend sync loop -/

/-- C4, counterexample: the claim says a failing iteration sleeps
`min(base_interval * 2 ^ consecutive_errors, max_interval)` and *then*
increments `consecutive_errors`; the code increments first and sleeps
with the incremented counter.  With `base_interval = 60`,
`max_interval = 3600` and `consecutive_errors = 0`, the code sleeps 120
seconds while the claimed formula gives
`min(60 * 2 ^ 0, 3600) = 60`. -/
theorem resend_backoff_claim_cex :
    resendSchedulerStep 60 3600 true 0 = (120, 1) ∧
      min (60 * 2 ^ 0) 3600 = 60 := by
  constructor <;> rfl

/-- C4, amended: each failing iteration increments `consecutive_errors`
and then sleeps `min(base_interval * 2 ^ consecutive_errors,
max_interval)` computed with the incremented counter; each successful
iteration resets the counter to 0 and sleeps `base_interval`; with
`base_interval = 60` and `max_interval = 3600`, after 2 consecutive
errors the computed backoff is `min(60 * 2 ^ 2, 3600) = 240` seconds. -/
theorem resend_backoff_spec :
    (∀ base maxi e, resendSchedulerStep base maxi true e =
        (min (base * 2 ^ (e + 1)) maxi, e + 1)) ∧
    (∀ base maxi e, resendSchedulerStep base maxi false e = (base, 0)) ∧
    resendSchedulerRun 60 3600 [true, true] 0 = ([120, 240], 2) ∧
    min (60 * 2 ^ 2) 3600 = 240 := by
  refine ⟨fun _ _ _ => rfl, fun _ _ _ => rfl, rfl, rfl⟩

/-! ## C2 — the non-pending guard of `process_event` -/

/-- C2: for every stored event whose status is not `pending`,
`process_event` returns the `Event already processed` error result and
returns the store unchanged — no event row, rule row or action-log row
is created or mutated. -/
theorem process_event_nonpending_guard (re : RegexOracle) (h : Handlers)
    (s : Store) (event_id now : Nat) (ev : EventRow)
    (hev : s.events.find? (fun r => r.id == event_id) = some ev)
    (hst : ev.status ≠ "pending") :
    processEvent re h s event_id now =
      .ok (s, .err ("Event already processed: " ++ ev.status)) := by
  unfold processEvent
  rw [hev]
  simp only [ne_eq, hst, not_false_eq_true, if_true]

/-- An already-processed copy of the sample event. -/
def processedEvent : EventRow := { sampleEvent with status := "processed" }

/-- A store holding only `processedEvent`. -/
def processedStore : Store :=
  { events := [processedEvent], rules := [], actionLogs := [], inboxes := [],
    nextEventId := 2, nextLogId := 0 }

/-- C2, witness: a store holding one already-`processed` event is
returned untouched together with the error result. -/
theorem process_event_nonpending_guard_witness :
    processedStore.events.find? (fun r => r.id == 1) = some processedEvent ∧
    processedEvent.status ≠ "pending" ∧
    processEvent reStub okHandlers processedStore 1 5 =
      .ok (processedStore, .err ("Event already processed: " ++ processedEvent.status)) :=
  ⟨by decide, by decide,
   process_event_nonpending_guard reStub okHandlers processedStore 1 5
     processedEvent (by decide) (by decide)⟩

/-! ## Matcher lemmas -/

/-- Identify the string values among `PyVal`s. -/
def PyVal.isStr : PyVal → Bool
  | .str _ => true
  | _ => false

theorem PyVal.isStr_exists {v : PyVal} (h : v.isStr = true) :
    ∃ s, v = .str s := by
  cases v <;> simp [PyVal.isStr] at h ⊢

/-- The condition keys `_check_condition` knows. -/
def knownCondKeys : List String :=
  ["from_contains", "from_equals", "to_contains", "to_equals",
   "subject_contains", "subject_equals", "subject_matches",
   "body_contains", "has_attachment", "event_type_equals", "source_equals"]

theorem pyContains_str_ok (t : Option String) (s : String) :
    ∃ b, pyContains t (.str s) = .ok b := by
  unfold pyContains
  split
  · exact ⟨false, rfl⟩
  · exact ⟨_, rfl⟩

theorem pyEquals_str_ok (t : Option String) (s : String) :
    ∃ b, pyEquals t (.str s) = .ok b := by
  unfold pyEquals
  split
  · exact ⟨_, rfl⟩
  · exact ⟨_, rfl⟩

theorem pyRegexMatch_str_ok (re : RegexOracle) (t : Option String)
    (s : String) : ∃ b, pyRegexMatch re t (.str s) = .ok b := by
  unfold pyRegexMatch
  split
  · exact ⟨false, rfl⟩
  · dsimp only
    cases hre : re s (t.getD "") with
    | ok b => exact ⟨b, rfl⟩
    | error e => exact ⟨false, rfl⟩

/-- A string-valued condition entry always evaluates without raising. -/
theorem checkCondition_str_ok (re : RegexOracle) (ev : EventRow)
    (k : String) (s : String) :
    ∃ b, checkCondition re ev k (.str s) = .ok b := by
  unfold checkCondition
  by_cases h1 : (k == "from_contains") = true
  · rw [if_pos h1]; exact pyContains_str_ok _ _
  rw [if_neg h1]
  by_cases h2 : (k == "from_equals") = true
  · rw [if_pos h2]; exact pyEquals_str_ok _ _
  rw [if_neg h2]
  by_cases h3 : (k == "to_contains") = true
  · rw [if_pos h3]; exact pyContains_str_ok _ _
  rw [if_neg h3]
  by_cases h4 : (k == "to_equals") = true
  · rw [if_pos h4]; exact pyEquals_str_ok _ _
  rw [if_neg h4]
  by_cases h5 : (k == "subject_contains") = true
  · rw [if_pos h5]; exact pyContains_str_ok _ _
  rw [if_neg h5]
  by_cases h6 : (k == "subject_equals") = true
  · rw [if_pos h6]; exact pyEquals_str_ok _ _
  rw [if_neg h6]
  by_cases h7 : (k == "subject_matches") = true
  · rw [if_pos h7]; exact pyRegexMatch_str_ok _ _ _
  rw [if_neg h7]
  by_cases h8 : (k == "body_contains") = true
  · rw [if_pos h8]; exact pyContains_str_ok _ _
  rw [if_neg h8]
  by_cases h9 : (k == "has_attachment") = true
  · rw [if_pos h9]; exact ⟨_, rfl⟩
  rw [if_neg h9]
  by_cases h10 : (k == "event_type_equals") = true
  · rw [if_pos h10]; exact ⟨_, rfl⟩
  rw [if_neg h10]
  by_cases h11 : (k == "source_equals") = true
  · rw [if_pos h11]; exact ⟨_, rfl⟩
  rw [if_neg h11]
  exact ⟨_, rfl⟩

/-- An unknown condition key fails closed, whatever the value. -/
theorem checkCondition_unknown (re : RegexOracle) (ev : EventRow)
    (k : String) (v : PyVal) (h : k ∉ knownCondKeys) :
    checkCondition re ev k v = .ok false := by
  simp only [knownCondKeys, List.mem_cons, List.not_mem_nil, or_false,
    not_or] at h
  obtain ⟨n1, n2, n3, n4, n5, n6, n7, n8, n9, n10, n11⟩ := h
  unfold checkCondition
  rw [if_neg (fun hh => n1 (eq_of_beq hh)),
    if_neg (fun hh => n2 (eq_of_beq hh)),
    if_neg (fun hh => n3 (eq_of_beq hh)),
    if_neg (fun hh => n4 (eq_of_beq hh)),
    if_neg (fun hh => n5 (eq_of_beq hh)),
    if_neg (fun hh => n6 (eq_of_beq hh)),
    if_neg (fun hh => n7 (eq_of_beq hh)),
    if_neg (fun hh => n8 (eq_of_beq hh)),
    if_neg (fun hh => n9 (eq_of_beq hh)),
    if_neg (fun hh => n10 (eq_of_beq hh)),
    if_neg (fun hh => n11 (eq_of_beq hh))]

/-- With string-valued entries, `matches_conditions` always returns a
boolean. -/
theorem matchesConditions_str_ok (re : RegexOracle) (ev : EventRow)
    (conds : List (String × PyVal))
    (hstr : ∀ p ∈ conds, (p.2).isStr = true) :
    ∃ b, matchesConditions re ev conds = .ok b := by
  induction conds with
  | nil => exact ⟨true, rfl⟩
  | cons q rest ih =>
    obtain ⟨s, hs⟩ := PyVal.isStr_exists (hstr q (List.mem_cons_self q rest))
    obtain ⟨k, v⟩ := q
    simp only at hs
    subst hs
    unfold matchesConditions
    obtain ⟨b, hb⟩ := checkCondition_str_ok re ev k s
    rw [hb]
    cases b
    · exact ⟨false, rfl⟩
    · exact ih (fun p hp => hstr p (List.mem_cons_of_mem _ hp))

/-- With string-valued entries, an unknown key anywhere in the map makes
the whole conjunction `False`. -/
theorem matchesConditions_unknown_false (re : RegexOracle) (ev : EventRow)
    (conds : List (String × PyVal))
    (hstr : ∀ p ∈ conds, (p.2).isStr = true)
    (hun : ∃ p ∈ conds, p.1 ∉ knownCondKeys) :
    matchesConditions re ev conds = .ok false := by
  induction conds with
  | nil =>
    obtain ⟨p, hp, _⟩ := hun
    exact absurd hp (List.not_mem_nil p)
  | cons q rest ih =>
    obtain ⟨s, hs⟩ := PyVal.isStr_exists (hstr q (List.mem_cons_self q rest))
    obtain ⟨p, hp, hpk⟩ := hun
    rcases List.mem_cons.mp hp with rfl | hp'
    · unfold matchesConditions
      rw [show p.2 = PyVal.str s from hs, checkCondition_unknown re ev p.1 _ hpk]
    · obtain ⟨k, v⟩ := q
      simp only at hs
      subst hs
      unfold matchesConditions
      obtain ⟨b, hb⟩ := checkCondition_str_ok re ev k s
      rw [hb]
      cases b
      · rfl
      · exact ih (fun r hr => hstr r (List.mem_cons_of_mem _ hr)) ⟨p, hp', hpk⟩

/-- A `subject_matches` condition whose pattern does not compile
(`re.error` on every input) evaluates to `False` rather than raising. -/
theorem checkCondition_invalid_regex (re : RegexOracle) (ev : EventRow)
    (pat : String) (hbad : ∀ t, re pat t = .error ()) :
    checkCondition re ev "subject_matches" (.str pat) = .ok false := by
  show pyRegexMatch re ev.email_subject (.str pat) = .ok false
  unfold pyRegexMatch
  split
  · rfl
  · dsimp only
    rw [hbad]

/-! ## C3 — `matches_conditions` never raises -/

/-- A regex oracle on which every pattern fails to compile. -/
def reBad : RegexOracle := fun _ _ => .error ()

/-- C3, counterexample: a truthy non-string condition value under a
string predicate makes `_contains` call `.lower()` on it, raising
`AttributeError` out of `matches_conditions` — the function does not
return a boolean for every conditions map. -/
theorem matches_conditions_can_raise_cex :
    matchesConditions reStub sampleEvent [("from_contains", PyVal.bool true)] =
      .error .attributeError := by
  rfl

/-- C3, amended: for every event and every conditions map whose values
are strings, `matches_conditions` returns a boolean without raising; an
unknown condition key makes the whole conjunction false; and a
`subject_matches` condition whose pattern is an invalid regex evaluates
to false. -/
theorem matches_conditions_fail_closed (re : RegexOracle) (ev : EventRow)
    (conds : List (String × PyVal))
    (hstr : ∀ p ∈ conds, (p.2).isStr = true) :
    (∃ b, matchesConditions re ev conds = .ok b) ∧
    ((∃ p ∈ conds, p.1 ∉ knownCondKeys) →
      matchesConditions re ev conds = .ok false) ∧
    (∀ pat, (∀ t, re pat t = .error ()) →
      checkCondition re ev "subject_matches" (.str pat) = .ok false) :=
  ⟨matchesConditions_str_ok re ev conds hstr,
   fun hun => matchesConditions_unknown_false re ev conds hstr hun,
   fun pat hbad => checkCondition_invalid_regex re ev pat hbad⟩

/-- C3, witness: a one-entry map with an unknown key and a string value,
against an oracle whose every pattern is invalid. -/
theorem matches_conditions_fail_closed_witness :
    (∀ p ∈ [("frobnicate", PyVal.str "x")], (p.2).isStr = true) ∧
    ((∃ b, matchesConditions reBad sampleEvent
        [("frobnicate", PyVal.str "x")] = .ok b) ∧
     ((∃ p ∈ [("frobnicate", PyVal.str "x")], p.1 ∉ knownCondKeys) →
       matchesConditions reBad sampleEvent
         [("frobnicate", PyVal.str "x")] = .ok false) ∧
     (∀ pat, (∀ t, reBad pat t = .error ()) →
       checkCondition reBad sampleEvent "subject_matches" (.str pat) =
         .ok false)) :=
  ⟨by decide,
   matches_conditions_fail_closed reBad sampleEvent
     [("frobnicate", PyVal.str "x")] (by decide)⟩

/-! ## C8 — case-insensitivity of the string predicates -/

theorem pyLower_empty_iff (s : String) : pyLower s = "" ↔ s = "" := by
  constructor
  · intro h
    have hd : s.data.map Char.toLower = [] := congrArg String.data h
    have hnil : s.data = [] := List.map_eq_nil_iff.mp hd
    cases s
    simp only at hnil
    rw [hnil]
  · intro h
    rw [h]
    rfl

theorem beq_eq_beq_of_iff {a b c d : String} (h : a = b ↔ c = d) :
    (a == b) = (c == d) := by
  by_cases hab : a = b
  · rw [beq_iff_eq.mpr hab, beq_iff_eq.mpr (h.mp hab)]
  · rw [beq_eq_false_iff_ne.mpr hab, beq_eq_false_iff_ne.mpr (fun x => hab (h.mpr x))]

theorem ne_empty_congr {a b : String} (h : pyLower a = pyLower b) :
    (a != "") = (b != "") := by
  have hiff : (a = "") ↔ (b = "") := by
    rw [← pyLower_empty_iff a, ← pyLower_empty_iff b, h]
  show (!(a == "")) = (!(b == ""))
  rw [beq_eq_beq_of_iff hiff]

theorem truthyStr_congr {t₁ t₂ : Option String}
    (h : t₁.map pyLower = t₂.map pyLower) : truthyStr t₁ = truthyStr t₂ := by
  cases t₁ with
  | none =>
    cases t₂ with
    | none => rfl
    | some b => simp at h
  | some a =>
    cases t₂ with
    | none => simp at h
    | some b =>
      simp only [Option.map_some'] at h
      injection h with hl
      exact ne_empty_congr hl

theorem getD_lower_congr {t₁ t₂ : Option String}
    (h : t₁.map pyLower = t₂.map pyLower) :
    pyLower (t₁.getD "") = pyLower (t₂.getD "") := by
  cases t₁ with
  | none =>
    cases t₂ with
    | none => rfl
    | some b => simp at h
  | some a =>
    cases t₂ with
    | none => simp at h
    | some b =>
      simp only [Option.map_some'] at h
      injection h

theorem pyContains_congr {t₁ t₂ : Option String} {v₁ v₂ : String}
    (ht : t₁.map pyLower = t₂.map pyLower) (hv : pyLower v₁ = pyLower v₂) :
    pyContains t₁ (.str v₁) = pyContains t₂ (.str v₂) := by
  have h1 : truthyStr t₁ = truthyStr t₂ := truthyStr_congr ht
  have h2 : (PyVal.str v₁).truthy = (PyVal.str v₂).truthy := ne_empty_congr hv
  have h3 : pyLower (t₁.getD "") = pyLower (t₂.getD "") := getD_lower_congr ht
  unfold pyContains
  dsimp only
  rw [h1, h2, h3, hv]

theorem pyEqOptStr_falsy_congr {t₁ t₂ : Option String} {v₁ v₂ : String}
    (ht : t₁.map pyLower = t₂.map pyLower) (hv : pyLower v₁ = pyLower v₂)
    (hf : (truthyStr t₁ && (v₁ != "")) = false) :
    pyEqOptStr t₁ (.str v₁) = pyEqOptStr t₂ (.str v₂) := by
  have hviff : (v₁ = "") ↔ (v₂ = "") := by
    rw [← pyLower_empty_iff v₁, ← pyLower_empty_iff v₂, hv]
  cases t₁ with
  | none =>
    cases t₂ with
    | none => rfl
    | some b => simp at ht
  | some a =>
    cases t₂ with
    | none => simp at ht
    | some b =>
      simp only [Option.map_some'] at ht
      injection ht with hab
      have hsiff : (a = "") ↔ (b = "") := by
        rw [← pyLower_empty_iff a, ← pyLower_empty_iff b, hab]
      show (a == v₁) = (b == v₂)
      rcases Bool.and_eq_false_iff.mp hf with hta | hv1
      · -- `a` is the empty string (the text is falsy but present)
        have ha : a = "" := by
          have := hta
          unfold truthyStr at this
          simpa using this
        have hb : b = "" := hsiff.mp ha
        rw [ha, hb]
        exact beq_eq_beq_of_iff (by rw [eq_comm, hviff, eq_comm])
      · -- `v₁` is the empty string
        have hv1' : v₁ = "" := by simpa using hv1
        have hv2' : v₂ = "" := hviff.mp hv1'
        rw [hv1', hv2']
        exact beq_eq_beq_of_iff hsiff

theorem pyEquals_congr {t₁ t₂ : Option String} {v₁ v₂ : String}
    (ht : t₁.map pyLower = t₂.map pyLower) (hv : pyLower v₁ = pyLower v₂) :
    pyEquals t₁ (.str v₁) = pyEquals t₂ (.str v₂) := by
  have h1 : truthyStr t₁ = truthyStr t₂ := truthyStr_congr ht
  have h2 : (PyVal.str v₁).truthy = (PyVal.str v₂).truthy := ne_empty_congr hv
  have h3 : pyLower (t₁.getD "") = pyLower (t₂.getD "") := getD_lower_congr ht
  unfold pyEquals
  dsimp only
  cases hc : (truthyStr t₁ && (PyVal.str v₁).truthy) with
  | false =>
    have hc₂ : (truthyStr t₂ && (PyVal.str v₂).truthy) = false := by
      rw [← h1, ← h2]; exact hc
    have hif₂ : ¬(truthyStr t₂ && (PyVal.str v₂).truthy) = true := by
      rw [hc₂]; simp
    rw [if_pos (show ¬false = true by simp), if_pos hif₂,
      pyEqOptStr_falsy_congr ht hv hc]
  | true =>
    have hc₂ : (truthyStr t₂ && (PyVal.str v₂).truthy) = true := by
      rw [← h1, ← h2]; exact hc
    have hif₂ : ¬¬(truthyStr t₂ && (PyVal.str v₂).truthy) = true := by
      rw [hc₂]; simp
    rw [if_neg (show ¬¬true = true by simp), if_neg hif₂, h3, hv]

/-- C8, counterexample: `event_type_equals` compares with plain `==`,
so its result is not invariant under changing the letter case of the
event field — two events whose `event_type` differ only in case give
different results for the same condition value. -/
theorem event_type_equals_case_cex :
    pyLower "Email.Received" = pyLower "email.received" ∧
    checkCondition reStub { sampleEvent with event_type := "Email.Received" }
      "event_type_equals" (.str "email.received") = .ok false ∧
    checkCondition reStub sampleEvent
      "event_type_equals" (.str "email.received") = .ok true := by
  refine ⟨by decide, by decide, by decide⟩

/-- C8, amended: the from/to/subject/body `contains` and `equals`
predicates are case-insensitive — their result is unchanged when the
letter case of the event field or of the condition value is changed
(`subject_matches` delegates case-insensitivity to the external regex
engine's `IGNORECASE` flag) — while `event_type_equals` and
`source_equals` are plain case-sensitive equality on the corresponding
event fields. -/
theorem string_predicates_case_insensitive (re : RegexOracle)
    (ev₁ ev₂ : EventRow) (v₁ v₂ : String)
    (hfrom : ev₁.email_from.map pyLower = ev₂.email_from.map pyLower)
    (hto : ev₁.email_to.map pyLower = ev₂.email_to.map pyLower)
    (hsubj : ev₁.email_subject.map pyLower = ev₂.email_subject.map pyLower)
    (hbody : ev₁.email_body.map pyLower = ev₂.email_body.map pyLower)
    (hv : pyLower v₁ = pyLower v₂) :
    (∀ k ∈ (["from_contains", "from_equals", "to_contains", "to_equals",
        "subject_contains", "subject_equals", "body_contains"] : List String),
      checkCondition re ev₁ k (.str v₁) = checkCondition re ev₂ k (.str v₂)) ∧
    (∀ ev : EventRow, ∀ u : String,
      checkCondition re ev "event_type_equals" (.str u) =
        .ok (ev.event_type == u) ∧
      checkCondition re ev "source_equals" (.str u) = .ok (ev.source == u)) := by
  constructor
  · intro k hk
    simp only [List.mem_cons, List.not_mem_nil, or_false] at hk
    rcases hk with rfl | rfl | rfl | rfl | rfl | rfl | rfl
    · exact pyContains_congr hfrom hv
    · exact pyEquals_congr hfrom hv
    · exact pyContains_congr hto hv
    · exact pyEquals_congr hto hv
    · exact pyContains_congr hsubj hv
    · exact pyEquals_congr hsubj hv
    · exact pyContains_congr hbody hv
  · intro ev u
    exact ⟨rfl, rfl⟩

/-! ## C1 — first-match routing -/

theorem routeFirst_ok_none_iff (re : RegexOracle) (ev : EventRow)
    (rules : List Rule)
    (hstr : ∀ r ∈ rules, ∀ p ∈ r.conditions, (p.2).isStr = true) :
    routeFirst re ev rules = .ok none ↔
      ∀ r ∈ rules, matchesConditions re ev r.conditions = .ok false := by
  induction rules with
  | nil => simp [routeFirst]
  | cons r rest ih =>
    obtain ⟨b, hb⟩ :=
      matchesConditions_str_ok re ev r.conditions
        (hstr r (List.mem_cons_self r rest))
    have ih' := ih (fun q hq => hstr q (List.mem_cons_of_mem r hq))
    unfold routeFirst
    rw [hb]
    cases b
    · simp only [List.forall_mem_cons, hb, true_and]
      exact ih'
    · constructor
      · intro h
        exact absurd h (by simp)
      · intro h
        have := h r (List.mem_cons_self r rest)
        rw [hb] at this
        exact absurd this (by simp)

theorem routeFirst_ok_some (re : RegexOracle) (ev : EventRow)
    (rules : List Rule) (res : RouteResult)
    (hstr : ∀ r ∈ rules, ∀ p ∈ r.conditions, (p.2).isStr = true)
    (h : routeFirst re ev rules = .ok (some res)) :
    ∃ i, ∃ hi : i < rules.length,
      matchesConditions re ev (rules.get ⟨i, hi⟩).conditions = .ok true ∧
      res = toRouteResult (rules.get ⟨i, hi⟩) ∧
      ∀ r ∈ rules.take i, matchesConditions re ev r.conditions = .ok false := by
  induction rules with
  | nil => exact absurd h (by simp [routeFirst])
  | cons r rest ih =>
    obtain ⟨b, hb⟩ :=
      matchesConditions_str_ok re ev r.conditions
        (hstr r (List.mem_cons_self r rest))
    unfold routeFirst at h
    rw [hb] at h
    cases b
    · obtain ⟨i, hi, h1, h2, h3⟩ :=
        ih (fun q hq => hstr q (List.mem_cons_of_mem r hq)) h
      refine ⟨i + 1, Nat.succ_lt_succ hi, h1, h2, ?_⟩
      intro q hq
      rw [List.take_succ_cons] at hq
      rcases List.mem_cons.mp hq with rfl | hq'
      · exact hb
      · exact h3 q hq'
    · refine ⟨0, Nat.succ_pos _, hb, ?_, by simp⟩
      injection h with h'
      injection h' with h''
      exact h''.symm

/-- A rule whose condition value is a truthy non-string, making the
matcher raise. -/
def badRule : Rule :=
  { id := "r-bad", name := "bad", enabled := true, priority := 0,
    conditions := [("from_contains", PyVal.bool true)], action := "ignore",
    action_config := none, match_count := 0, last_matched_at := none,
    created_at := 0 }

/-- C1, counterexample: with an enabled rule whose condition value is a
truthy non-string, `route_event` raises (propagating the matcher's
`AttributeError`) instead of returning the first matching rule or none,
so the claim does not hold for every rule set. -/
theorem route_event_can_raise_cex :
    routeEvent reStub [badRule] sampleEvent = .error .attributeError := by
  rfl

/-- C1, amended: for every rule set whose condition values are strings
and every event, `route_event` evaluates the enabled rules sorted by
`(priority desc, created_at asc)` — the sorted list is a permutation of
the enabled rules and is sorted by that order — and returns the first
rule in that order whose conditions all hold (with its id, name, action
and action config), returning none exactly when no enabled rule
matches; being a function of the rule set and event, the result is
deterministic. -/
theorem route_event_first_match (re : RegexOracle) (rules : List Rule)
    (ev : EventRow)
    (hstr : ∀ r ∈ rules, ∀ p ∈ r.conditions, (p.2).isStr = true) :
    (getEnabledRules rules).Perm (rules.filter (·.enabled)) ∧
    List.Sorted ruleOrder (getEnabledRules rules) ∧
    (routeEvent re rules ev = .ok none ↔
      ∀ r ∈ getEnabledRules rules,
        matchesConditions re ev r.conditions = .ok false) ∧
    (∀ res, routeEvent re rules ev = .ok (some res) →
      ∃ i, ∃ hi : i < (getEnabledRules rules).length,
        matchesConditions re ev
          ((getEnabledRules rules).get ⟨i, hi⟩).conditions = .ok true ∧
        res = toRouteResult ((getEnabledRules rules).get ⟨i, hi⟩) ∧
        ∀ r ∈ (getEnabledRules rules).take i,
          matchesConditions re ev r.conditions = .ok false) := by
  have hsub : ∀ r ∈ getEnabledRules rules, ∀ p ∈ r.conditions,
      (p.2).isStr = true := by
    intro r hr
    have : r ∈ rules.filter (·.enabled) := by
      unfold getEnabledRules at hr
      exact (List.mem_insertionSort ruleOrder).mp hr
    exact hstr r (List.mem_of_mem_filter this)
  refine ⟨List.perm_insertionSort ruleOrder _,
    List.sorted_insertionSort ruleOrder _,
    routeFirst_ok_none_iff re ev _ hsub,
    fun res h => routeFirst_ok_some re ev _ res hsub h⟩

/-! ## C5 — action-log lifecycle of `execute_action` -/

theorem map_update_append (logs : List ActionLog) (aid : Nat)
    (hfresh : ∀ l ∈ logs, l.id ≠ aid) (row : ActionLog)
    (f : ActionLog → ActionLog) :
    (logs ++ [row]).map (fun l => if l.id = aid then f l else l) =
      logs ++ [if row.id = aid then f row else row] := by
  rw [List.map_append]
  congr 1
  calc logs.map (fun l => if l.id = aid then f l else l)
      = logs.map id :=
        List.map_congr_left (fun a ha => by rw [if_neg (hfresh a ha)]; rfl)
    _ = logs := List.map_id logs

/-- The `running` audit row written by `_log_action_start`. -/
def runningRow (s : Store) (event_id : Nat) (rule_id action : String)
    (cfg : List (String × PyVal)) : ActionLog :=
  { id := s.nextLogId, event_id := event_id, rule_id := rule_id,
    action := action, action_input := cfg, status := "running",
    action_output := none, error := none, completed_at := none }

/-- C5: every call to `execute_action` first appends exactly one
`running` audit row (before any handler work), and ends with that same
row finalised to `completed` when the returned result reports success
and `failed` otherwise, carrying the result and completion time; an
exception raised by the handler is caught, recorded in the row's error
column, and returned as `{success: false, error}` rather than
propagated. -/
theorem execute_action_log_lifecycle (h : Handlers) (s : Store)
    (event_id : Nat) (rule_id action : String) (cfg : List (String × PyVal))
    (ev : EventRow) (now : Nat)
    (hfresh : ∀ l ∈ s.actionLogs, l.id < s.nextLogId) :
    (logActionStart s event_id rule_id action cfg).1.actionLogs =
      s.actionLogs ++ [runningRow s event_id rule_id action cfg] ∧
    (∃ log,
      (executeAction h s event_id rule_id action cfg ev now).1.actionLogs =
        s.actionLogs ++ [log] ∧
      log.id = s.nextLogId ∧ log.event_id = event_id ∧
      log.rule_id = rule_id ∧ log.action = action ∧
      log.status =
        (if (executeAction h s event_id rule_id action cfg ev now).2.success
          then "completed" else "failed") ∧
      log.action_output =
        some (executeAction h s event_id rule_id action cfg ev now).2 ∧
      log.completed_at = some now) ∧
    (∀ e, runHandler h action event_id ev cfg = .error e →
      (executeAction h s event_id rule_id action cfg ev now).2 =
        { success := false, error := some e }) := by
  have hne : ∀ l ∈ s.actionLogs, l.id ≠ s.nextLogId :=
    fun l hl => Nat.ne_of_lt (hfresh l hl)
  refine ⟨rfl, ?_, ?_⟩
  · unfold executeAction
    cases hrun : runHandler h action event_id ev cfg with
    | ok p =>
      obtain ⟨result, upd⟩ := p
      cases upd with
      | none =>
        refine ⟨{ runningRow s event_id rule_id action cfg with
            status := if result.success then "completed" else "failed",
            action_output := some result, error := none,
            completed_at := some now }, ?_, rfl, rfl, rfl, rfl, rfl, rfl, rfl⟩
        unfold logActionComplete logActionStart runningRow
        dsimp only
        rw [map_update_append s.actionLogs s.nextLogId hne _ _, if_pos rfl]
      | some f =>
        refine ⟨{ runningRow s event_id rule_id action cfg with
            status := if result.success then "completed" else "failed",
            action_output := some result, error := none,
            completed_at := some now }, ?_, rfl, rfl, rfl, rfl, rfl, rfl, rfl⟩
        unfold logActionComplete logActionStart runningRow
        dsimp only
        rw [map_update_append s.actionLogs s.nextLogId hne _ _, if_pos rfl]
    | error e =>
      refine ⟨{ runningRow s event_id rule_id action cfg with
          status := "failed",
          action_output := some { success := false, error := some e },
          error := some e, completed_at := some now }, ?_, rfl, rfl, rfl, rfl,
        rfl, rfl, rfl⟩
      unfold logActionComplete logActionStart runningRow
      dsimp only
      rw [map_update_append s.actionLogs s.nextLogId hne _ _, if_pos rfl]
      rfl
  · intro e he
    unfold executeAction
    rw [he]

/-- C5, witness: executing the pure `ignore` action on a store with an
empty audit table. -/
theorem execute_action_log_lifecycle_witness :
    (∀ l ∈ processedStore.actionLogs, l.id < processedStore.nextLogId) ∧
    ((logActionStart processedStore 1 "r-low" "ignore" []).1.actionLogs =
      processedStore.actionLogs ++ [runningRow processedStore 1 "r-low" "ignore" []] ∧
    (∃ log,
      (executeAction okHandlers processedStore 1 "r-low" "ignore" []
        processedEvent 7).1.actionLogs = processedStore.actionLogs ++ [log] ∧
      log.id = processedStore.nextLogId ∧ log.event_id = 1 ∧
      log.rule_id = "r-low" ∧ log.action = "ignore" ∧
      log.status =
        (if (executeAction okHandlers processedStore 1 "r-low" "ignore" []
            processedEvent 7).2.success then "completed" else "failed") ∧
      log.action_output =
        some (executeAction okHandlers processedStore 1 "r-low" "ignore" []
          processedEvent 7).2 ∧
      log.completed_at = some 7) ∧
    (∀ e, runHandler okHandlers "ignore" 1 processedEvent [] = .error e →
      (executeAction okHandlers processedStore 1 "r-low" "ignore" []
        processedEvent 7).2 = { success := false, error := some e })) :=
  ⟨by decide,
   execute_action_log_lifecycle okHandlers processedStore 1 "r-low" "ignore"
     [] processedEvent 7 (by decide)⟩

/-! ## C7 — terminal status of `process_event` on a pending event -/

theorem find_updateEvents (evs : List EventRow) (i : Nat)
    (f : EventRow → EventRow) (hf : ∀ e, (f e).id = e.id) :
    (updateEvents evs i f).find? (fun r => r.id == i) =
      (evs.find? (fun r => r.id == i)).map f := by
  induction evs with
  | nil => rfl
  | cons e rest ih =>
    unfold updateEvents at *
    simp only [List.map_cons]
    by_cases he : e.id = i
    · have h1 : ((f e).id == i) = true := beq_iff_eq.mpr (by rw [hf e, he])
      have h2 : (e.id == i) = true := beq_iff_eq.mpr he
      rw [if_pos he]
      simp only [List.find?, h1, h2]
      rfl
    · have h1 : (e.id == i) = false := beq_eq_false_iff_ne.mpr he
      rw [if_neg he]
      simp only [List.find?, h1]
      exact ih

/-- C7: for every pending event, `process_event` ends with a terminal
status: when no rule matched, the event's status becomes `unmatched`
with `routed_at` stamped and the error-free result
`{status: "unmatched", event_id}` is returned; when a rule matched, the
returned result and the event's final status are `processed` exactly
when the action result reports success and `failed` otherwise. -/
theorem process_event_terminal_status (re : RegexOracle) (h : Handlers)
    (s : Store) (event_id now : Nat) (ev : EventRow)
    (hev : s.events.find? (fun r => r.id == event_id) = some ev)
    (hpend : ev.status = "pending") :
    (routeEvent re s.rules ev = .ok none →
      ∃ s', processEvent re h s event_id now = .ok (s', .unmatched event_id) ∧
        s'.events.find? (fun r => r.id == event_id) =
          some { ev with status := "unmatched", routed_at := some now,
                         updated_at := now }) ∧
    (∀ rr, routeEvent re s.rules ev = .ok (some rr) →
      ∃ s' ares,
        processEvent re h s event_id now =
          .ok (s', .done (if ares.success then "processed" else "failed")
            event_id rr.rule_id rr.action ares) ∧
        ∃ ev', s'.events.find? (fun r => r.id == event_id) = some ev' ∧
          ev'.status = (if ares.success then "processed" else "failed")) := by
  have hguard : ¬(ev.status ≠ "pending") := fun hh => hh hpend
  constructor
  · intro hroute
    unfold processEvent
    rw [hev]
    dsimp only
    rw [if_neg hguard, hroute]
    refine ⟨_, rfl, ?_⟩
    dsimp only
    rw [find_updateEvents, hev]
    · rfl
    · exact fun e => rfl
  · intro rr hroute
    unfold processEvent
    rw [hev]
    dsimp only
    rw [if_neg hguard, hroute]
    dsimp only
    unfold executeAction
    cases hrun : runHandler h rr.action event_id ev rr.action_config with
    | ok p =>
      obtain ⟨result, upd⟩ := p
      cases upd with
      | none =>
        dsimp only
        refine ⟨_, _, rfl, ?_⟩
        dsimp only [logActionComplete, logActionStart]
        rw [find_updateEvents, find_updateEvents, hev]
        · exact ⟨_, rfl, rfl⟩
        · exact fun e => rfl
        · exact fun e => rfl
      | some g =>
        dsimp only
        refine ⟨_, _, rfl, ?_⟩
        dsimp only [logActionComplete, logActionStart]
        rw [find_updateEvents, find_updateEvents, find_updateEvents, hev]
        · exact ⟨_, rfl, rfl⟩
        · exact fun e => rfl
        · exact fun e => rfl
        · exact fun e => rfl
    | error e =>
      dsimp only
      refine ⟨_, { success := false, error := some e }, rfl, ?_⟩
      dsimp only [logActionComplete, logActionStart]
      rw [find_updateEvents, find_updateEvents, hev]
      · exact ⟨_, rfl, rfl⟩
      · exact fun e => rfl
      · exact fun e => rfl

/-- A store holding the pending sample event and the two sample rules. -/
def pendingStore : Store :=
  { events := [sampleEvent], rules := [ruleLow, ruleHigh], actionLogs := [],
    inboxes := [], nextEventId := 2, nextLogId := 0 }

/-- C7, witness: processing the pending sample event against the sample
rules (the high-priority rule matches on the subject). -/
theorem process_event_terminal_status_witness :
    (pendingStore.events.find? (fun r => r.id == 1) = some sampleEvent ∧
     sampleEvent.status = "pending") ∧
    ((routeEvent reStub pendingStore.rules sampleEvent = .ok none →
      ∃ s', processEvent reStub okHandlers pendingStore 1 9 =
          .ok (s', .unmatched 1) ∧
        s'.events.find? (fun r => r.id == 1) =
          some { sampleEvent with status := "unmatched", routed_at := some 9,
                                  updated_at := 9 }) ∧
     (∀ rr, routeEvent reStub pendingStore.rules sampleEvent =
         .ok (some rr) →
      ∃ s' ares,
        processEvent reStub okHandlers pendingStore 1 9 =
          .ok (s', .done (if ares.success then "processed" else "failed")
            1 rr.rule_id rr.action ares) ∧
        ∃ ev', s'.events.find? (fun r => r.id == 1) = some ev' ∧
          ev'.status = (if ares.success then "processed" else "failed"))) :=
  ⟨⟨by decide, by decide⟩,
   process_event_terminal_status reStub okHandlers pendingStore 1 9
     sampleEvent (by decide) (by decide)⟩

/-- C1, witness: the amended first-match property at a concrete rule set
with priorities 5 and 10. -/
theorem route_event_first_match_witness :
    (∀ r ∈ [ruleLow, ruleHigh], ∀ p ∈ r.conditions, (p.2).isStr = true) ∧
    ((getEnabledRules [ruleLow, ruleHigh]).Perm
        ([ruleLow, ruleHigh].filter (·.enabled)) ∧
     List.Sorted ruleOrder (getEnabledRules [ruleLow, ruleHigh]) ∧
     (routeEvent reStub [ruleLow, ruleHigh] sampleEvent = .ok none ↔
       ∀ r ∈ getEnabledRules [ruleLow, ruleHigh],
         matchesConditions reStub sampleEvent r.conditions = .ok false) ∧
     (∀ res, routeEvent reStub [ruleLow, ruleHigh] sampleEvent =
         .ok (some res) →
       ∃ i, ∃ hi : i < (getEnabledRules [ruleLow, ruleHigh]).length,
         matchesConditions reStub sampleEvent
           ((getEnabledRules [ruleLow, ruleHigh]).get ⟨i, hi⟩).conditions =
             .ok true ∧
         res = toRouteResult ((getEnabledRules [ruleLow, ruleHigh]).get ⟨i, hi⟩) ∧
         ∀ r ∈ (getEnabledRules [ruleLow, ruleHigh]).take i,
           matchesConditions reStub sampleEvent r.conditions = .ok false)) :=
  ⟨by decide,
   route_event_first_match reStub [ruleLow, ruleHigh] sampleEvent (by decide)⟩

/-- C8, witness: a concrete pair of case-variant events and condition
values. -/
theorem string_predicates_case_insensitive_witness :
    (({ sampleEvent with email_from := some "ALICE@x.com" } :
        EventRow).email_from.map pyLower = sampleEvent.email_from.map pyLower ∧
     ({ sampleEvent with email_from := some "ALICE@x.com" } :
        EventRow).email_to.map pyLower = sampleEvent.email_to.map pyLower ∧
     ({ sampleEvent with email_from := some "ALICE@x.com" } :
        EventRow).email_subject.map pyLower = sampleEvent.email_subject.map pyLower ∧
     ({ sampleEvent with email_from := some "ALICE@x.com" } :
        EventRow).email_body.map pyLower = sampleEvent.email_body.map pyLower ∧
     pyLower "ALICE" = pyLower "alice") ∧
    ((∀ k ∈ (["from_contains", "from_equals", "to_contains", "to_equals",
        "subject_contains", "subject_equals", "body_contains"] : List String),
      checkCondition reStub { sampleEvent with email_from := some "ALICE@x.com" }
          k (.str "ALICE") =
        checkCondition reStub sampleEvent k (.str "alice")) ∧
     (∀ ev : EventRow, ∀ u : String,
      checkCondition reStub ev "event_type_equals" (.str u) =
        .ok (ev.event_type == u) ∧
      checkCondition reStub ev "source_equals" (.str u) = .ok (ev.source == u))) :=
  ⟨⟨by decide, by decide, by decide, by decide, by decide⟩,
   string_predicates_case_insensitive reStub
     { sampleEvent with email_from := some "ALICE@x.com" } sampleEvent
     "ALICE" "alice" (by decide) (by decide) (by decide) (by decide) (by decide)⟩

/-! ## C6 and C10 — upsert behaviour of `create_event` -/

theorem find?_append_of_none {α : Type} (p : α → Bool) (l1 l2 : List α)
    (h : l1.find? p = none) : (l1 ++ l2).find? p = l2.find? p := by
  induction l1 with
  | nil => rfl
  | cons a t ih =>
    rw [List.cons_append]
    simp only [List.find?] at h ⊢
    cases hpa : p a with
    | true =>
      simp only [hpa] at h
      exact absurd h (by simp)
    | false =>
      simp only [hpa] at h ⊢
      exact ih h

theorem find?_singleton_pos {α : Type} (p : α → Bool) (a : α)
    (h : p a = true) : [a].find? p = some a := by
  simp only [List.find?, h]

theorem filter_singleton_pos {α : Type} (p : α → Bool) (a : α)
    (h : p a = true) : [a].filter p = [a] := by
  simp [List.filter_cons, h]

theorem sameKey_self (source : String) (source_id : Option String)
    (r : EventRow) (h1 : r.source = source) (h2 : r.source_id = source_id) :
    decide (sameKey r source source_id) = true :=
  decide_eq_true ⟨h1, h2⟩

/-- The conflict key is untouched by the `DO UPDATE SET payload,
updated_at` assignment. -/
theorem sameKey_update (e : EventRow) (p : List (String × PyVal)) (now : Nat)
    (source : String) (source_id : Option String) :
    decide (sameKey { e with payload := p, updated_at := now } source source_id) =
      decide (sameKey e source source_id) := rfl

theorem find_key_upsertMap (evs : List EventRow) (source : String)
    (source_id : Option String) (p : List (String × PyVal)) (now : Nat) :
    (evs.map (fun e => if sameKey e source source_id then
        { e with payload := p, updated_at := now } else e)).find?
        (fun e => decide (sameKey e source source_id)) =
      (evs.find? (fun e => decide (sameKey e source source_id))).map
        (fun e => { e with payload := p, updated_at := now }) := by
  induction evs with
  | nil => rfl
  | cons a t ih =>
    simp only [List.map_cons, List.find?]
    by_cases hk : sameKey a source source_id
    · have h2 : decide (sameKey a source source_id) = true := decide_eq_true hk
      have h1 : decide (sameKey { a with payload := p, updated_at := now }
          source source_id) = true := by rw [sameKey_update]; exact h2
      simp [hk, h1, h2, -List.find?_map]
    · have h2 : decide (sameKey a source source_id) = false := decide_eq_false hk
      simp only [if_neg hk, h2]
      exact ih

theorem filter_key_upsertMap (evs : List EventRow) (source : String)
    (source_id : Option String) (p : List (String × PyVal)) (now : Nat) :
    (evs.map (fun e => if sameKey e source source_id then
        { e with payload := p, updated_at := now } else e)).filter
        (fun e => decide (sameKey e source source_id)) =
      (evs.filter (fun e => decide (sameKey e source source_id))).map
        (fun e => { e with payload := p, updated_at := now }) := by
  induction evs with
  | nil => rfl
  | cons a t ih =>
    simp only [List.map_cons]
    by_cases hk : sameKey a source source_id
    · have h2 : decide (sameKey a source source_id) = true := decide_eq_true hk
      have h1 : decide (sameKey { a with payload := p, updated_at := now }
          source source_id) = true := by rw [sameKey_update]; exact h2
      simp [List.filter_cons, hk, h1, h2, ih]
    · have h2 : decide (sameKey a source source_id) = false := decide_eq_false hk
      simp [List.filter_cons, hk, h2, ih]

/-- Under the uniqueness invariant, a found conflict row is the only row
with its key. -/
theorem filter_key_singleton (evs : List EventRow) (source : String)
    (source_id : Option String) (r : EventRow)
    (huniq : evs.Pairwise (fun a b =>
      ¬(a.source = b.source ∧ a.source_id = b.source_id)))
    (hfind : evs.find? (fun e => decide (sameKey e source source_id)) = some r) :
    evs.filter (fun e => decide (sameKey e source source_id)) = [r] := by
  induction evs with
  | nil => simp [List.find?] at hfind
  | cons a t ih =>
    rw [List.pairwise_cons] at huniq
    obtain ⟨hhead, htail⟩ := huniq
    by_cases hk : sameKey a source source_id
    · have h2 : decide (sameKey a source source_id) = true := decide_eq_true hk
      simp only [List.find?, h2] at hfind
      have hra : a = r := by
        injection hfind
      have hnil : t.filter (fun e => decide (sameKey e source source_id)) = [] := by
        rw [List.filter_eq_nil_iff]
        intro b hb hpb
        have hkb : sameKey b source source_id := of_decide_eq_true hpb
        exact hhead b hb ⟨hk.1.trans hkb.1.symm, hk.2.trans hkb.2.symm⟩
      simp [List.filter_cons, h2, hnil, hra]
      exact hra ▸ hk
    · have h2 : decide (sameKey a source source_id) = false := decide_eq_false hk
      simp only [List.find?, h2] at hfind
      simp only [List.filter_cons, h2, if_false]
      simpa using ih htail hfind

/-- C6: `create_event` is idempotent per `(source, source_id)` — two
calls with the same key, starting from a store satisfying the
uniqueness invariant, leave exactly one event row with that key, and
its payload and `updated_at` come from the second call. -/
theorem create_event_idempotent (s : Store) (source : String)
    (source_id : Option String) (et1 et2 : String)
    (p1 p2 : List (String × PyVal)) (ef1 eto1 esub1 eb1 : Option String)
    (ed1 : Option Nat) (own1 : Option String)
    (ef2 eto2 esub2 eb2 : Option String) (ed2 : Option Nat)
    (own2 : Option String) (now1 now2 : Nat)
    (huniq : s.events.Pairwise (fun a b =>
      ¬(a.source = b.source ∧ a.source_id = b.source_id))) :
    ∃ r, ((createEvent (createEvent s source source_id et1 p1 ef1 eto1 esub1
          eb1 ed1 own1 now1).1 source source_id et2 p2 ef2 eto2 esub2 eb2
          ed2 own2 now2).1.events.filter
        (fun e => decide (sameKey e source source_id))) = [r] ∧
      r.payload = p2 ∧ r.updated_at = now2 := by
  cases hfind : s.events.find? (fun e => decide (sameKey e source source_id)) with
  | none =>
    have hfnil : s.events.filter
        (fun e => decide (sameKey e source source_id)) = [] := by
      rw [List.filter_eq_nil_iff]
      exact List.find?_eq_none.mp hfind
    unfold createEvent
    rw [hfind]
    dsimp only
    rw [find?_append_of_none _ s.events _ hfind, find?_singleton_pos]
    · dsimp only
      rw [filter_key_upsertMap, List.filter_append, hfnil, List.nil_append,
        filter_singleton_pos]
      · exact ⟨_, rfl, rfl, rfl⟩
      · exact sameKey_self source source_id _ rfl rfl
    · exact sameKey_self source source_id _ rfl rfl
  | some r0 =>
    unfold createEvent
    rw [hfind]
    dsimp only
    rw [find_key_upsertMap, hfind]
    simp only [Option.map_some']
    rw [filter_key_upsertMap, filter_key_upsertMap,
      filter_key_singleton s.events source source_id r0 huniq hfind]
    exact ⟨_, rfl, rfl, rfl⟩

/-- C6, witness: re-ingesting `(email, m-new)` twice into the store
holding the sample event. -/
theorem create_event_idempotent_witness :
    (pendingStore.events.Pairwise (fun a b =>
      ¬(a.source = b.source ∧ a.source_id = b.source_id))) ∧
    (∃ r, ((createEvent (createEvent pendingStore "email" (some "m-new")
          "email.received" [("v", PyVal.int 1)] none none none none none none
          3).1 "email" (some "m-new") "email.received" [("v", PyVal.int 2)]
          none none none none none none 4).1.events.filter
        (fun e => decide (sameKey e "email" (some "m-new")))) = [r] ∧
      r.payload = [("v", PyVal.int 2)] ∧ r.updated_at = 4) :=
  ⟨by decide,
   create_event_idempotent pendingStore "email" (some "m-new")
     "email.received" "email.received" [("v", PyVal.int 1)]
     [("v", PyVal.int 2)] none none none none none none none none none none
     none none 3 4 (by decide)⟩

/-- C10: when `create_event` hits an existing `(source, source_id)` row,
only `payload` and `updated_at` change: the returned row is the stored
row with exactly those two fields replaced, and every other listed field
(email fields, event_type, owner_id, status, matched_rule_id,
route_result) keeps its previous value — in particular an
already-processed event is not reset to pending. -/
theorem create_event_conflict_frame (s : Store) (source : String)
    (source_id : Option String) (et : String) (p : List (String × PyVal))
    (ef eto esub eb : Option String) (ed : Option Nat) (own : Option String)
    (now : Nat) (r : EventRow)
    (hr : s.events.find? (fun e => decide (sameKey e source source_id)) =
      some r) :
    (createEvent s source source_id et p ef eto esub eb ed own now).2 =
      { r with payload := p, updated_at := now } ∧
    (createEvent s source source_id et p ef eto esub eb ed own
        now).1.events.find? (fun e => decide (sameKey e source source_id)) =
      some { r with payload := p, updated_at := now } ∧
    ((createEvent s source source_id et p ef eto esub eb ed own now).2.email_from = r.email_from ∧
     (createEvent s source source_id et p ef eto esub eb ed own now).2.email_to = r.email_to ∧
     (createEvent s source source_id et p ef eto esub eb ed own now).2.email_subject = r.email_subject ∧
     (createEvent s source source_id et p ef eto esub eb ed own now).2.email_body = r.email_body ∧
     (createEvent s source source_id et p ef eto esub eb ed own now).2.email_date = r.email_date ∧
     (createEvent s source source_id et p ef eto esub eb ed own now).2.event_type = r.event_type ∧
     (createEvent s source source_id et p ef eto esub eb ed own now).2.owner_id = r.owner_id ∧
     (createEvent s source source_id et p ef eto esub eb ed own now).2.status = r.status ∧
     (createEvent s source source_id et p ef eto esub eb ed own now).2.matched_rule_id = r.matched_rule_id ∧
     (createEvent s source source_id et p ef eto esub eb ed own now).2.route_result = r.route_result) := by
  refine ⟨?_, ?_, ?_⟩
  · unfold createEvent
    rw [hr]
  · unfold createEvent
    rw [hr]
    dsimp only
    rw [find_key_upsertMap, hr]
    rfl
  · unfold createEvent
    rw [hr]
    exact ⟨rfl, rfl, rfl, rfl, rfl, rfl, rfl, rfl, rfl, rfl⟩

/-- C10, witness: re-ingesting the already-processed `(email, m1)` event
leaves its status `processed` and its other columns unchanged. -/
theorem create_event_conflict_frame_witness :
    (processedStore.events.find?
        (fun e => decide (sameKey e "email" (some "m1"))) =
      some processedEvent) ∧
    ((createEvent processedStore "email" (some "m1") "email.received"
        [("v", PyVal.int 9)] none none none none none none 11).2 =
      { processedEvent with payload := [("v", PyVal.int 9)],
                            updated_at := 11 } ∧
    (createEvent processedStore "email" (some "m1") "email.received"
        [("v", PyVal.int 9)] none none none none none none
        11).1.events.find? (fun e => decide (sameKey e "email" (some "m1"))) =
      some { processedEvent with payload := [("v", PyVal.int 9)],
                                 updated_at := 11 } ∧
    ((createEvent processedStore "email" (some "m1") "email.received"
        [("v", PyVal.int 9)] none none none none none none 11).2.email_from =
          processedEvent.email_from ∧
     (createEvent processedStore "email" (some "m1") "email.received"
        [("v", PyVal.int 9)] none none none none none none 11).2.email_to =
          processedEvent.email_to ∧
     (createEvent processedStore "email" (some "m1") "email.received"
        [("v", PyVal.int 9)] none none none none none none 11).2.email_subject =
          processedEvent.email_subject ∧
     (createEvent processedStore "email" (some "m1") "email.received"
        [("v", PyVal.int 9)] none none none none none none 11).2.email_body =
          processedEvent.email_body ∧
     (createEvent processedStore "email" (some "m1") "email.received"
        [("v", PyVal.int 9)] none none none none none none 11).2.email_date =
          processedEvent.email_date ∧
     (createEvent processedStore "email" (some "m1") "email.received"
        [("v", PyVal.int 9)] none none none none none none 11).2.event_type =
          processedEvent.event_type ∧
     (createEvent processedStore "email" (some "m1") "email.received"
        [("v", PyVal.int 9)] none none none none none none 11).2.owner_id =
          processedEvent.owner_id ∧
     (createEvent processedStore "email" (some "m1") "email.received"
        [("v", PyVal.int 9)] none none none none none none 11).2.status =
          processedEvent.status ∧
     (createEvent processedStore "email" (some "m1") "email.received"
        [("v", PyVal.int 9)] none none none none none none 11).2.matched_rule_id =
          processedEvent.matched_rule_id ∧
     (createEvent processedStore "email" (some "m1") "email.received"
        [("v", PyVal.int 9)] none none none none none none 11).2.route_result =
          processedEvent.route_result)) :=
  ⟨by decide,
   create_event_conflict_frame processedStore "email" (some "m1")
     "email.received" [("v", PyVal.int 9)] none none none none none none 11
     processedEvent (by decide)⟩

/-! ## C9 — singleton enforcement when spawning schedulers -/

theorem isSome_find_dictInsert (d : List (String × TaskRow)) (k : String)
    (v : TaskRow) (name : String) :
    ((dictInsert d k v).find? (fun p => p.1 == name)).isSome =
      ((k == name) || (d.find? (fun p => p.1 == name)).isSome) := by
  induction d with
  | nil =>
    unfold dictInsert
    cases hk : (k == name) <;> simp [List.find?, hk]
  | cons kv rest ih =>
    obtain ⟨k', v'⟩ := kv
    unfold dictInsert
    by_cases hk' : k' = k
    · subst hk'
      cases hkn : (k' == name) <;> simp [List.find?, hkn]
    · rw [if_neg hk']
      cases hk'n : (k' == name)
      · simp only [List.find?, hk'n]
        exact ih
      · simp [List.find?, hk'n]

theorem isSome_find_insertRows (rows : List TaskRow)
    (d : List (String × TaskRow)) (name : String) :
    ((rows.foldl (fun d r => dictInsert d r.task_name r) d).find?
        (fun p => p.1 == name)).isSome =
      ((d.find? (fun p => p.1 == name)).isSome ||
        rows.any (fun r => r.task_name == name)) := by
  induction rows generalizing d with
  | nil => simp
  | cons r rest ih =>
    simp only [List.foldl_cons, List.any_cons]
    rw [ih, isSome_find_dictInsert]
    cases (r.task_name == name) <;>
      cases (d.find? (fun p => p.1 == name)).isSome <;> simp

theorem isSome_find_getRunning_aux (qs : List String) (env : QueueTables)
    (d : List (String × TaskRow)) (name : String) :
    ((qs.foldl (fun running q =>
        (((env q).getD []).filter activeSchedRow).foldl
          (fun d r => dictInsert d r.task_name r) running) d).find?
        (fun p => p.1 == name)).isSome =
      ((d.find? (fun p => p.1 == name)).isSome ||
        qs.any (fun q => (((env q).getD []).filter activeSchedRow).any
          (fun r => r.task_name == name))) := by
  induction qs generalizing d with
  | nil => simp
  | cons q rest ih =>
    simp only [List.foldl_cons, List.any_cons]
    rw [ih, isSome_find_insertRows, Bool.or_assoc]

/-- The code's active-instance check: some hard-coded lane holds a row
that passes the SQL filter and carries the looked-up task name. -/
theorem isSome_find_getRunning (env : QueueTables) (name : String) :
    ((getRunningSchedulers env).find? (fun p => p.1 == name)).isSome =
      schedulerQueues.any (fun q =>
        (((env q).getD []).filter activeSchedRow).any
          (fun r => r.task_name == name)) := by
  unfold getRunningSchedulers
  rw [isSome_find_getRunning_aux]
  simp [List.find?]

/-- A queue state whose default lane holds a pending task not named
`*.scheduler`. -/
def envWorker : QueueTables := fun q =>
  if q = "default" then some [⟨"t1", "x.worker", "pending"⟩] else some []

/-- A declared-singleton descriptor whose task name does not end in
`.scheduler`. -/
def cfgWorker : SchedConfig :=
  { task_name := "x.worker", queue := some "default", params := [],
    singleton := some true, enabled := some true }

/-- C9, counterexample: a declared-singleton descriptor whose task name
does not match the `LIKE '%.scheduler'` filter is spawned even though an
active (pending) instance of its task name sits in a queue lane —
`spawn_scheduler` does not skip it with `already_running`. -/
theorem spawn_scheduler_singleton_cex :
    ((envWorker "default").getD []).any (fun r =>
      r.task_name == "x.worker" &&
        (r.state == "pending" || r.state == "running" ||
          r.state == "sleeping")) = true ∧
    cfgWorker.singleton.getD true = true ∧
    cfgWorker.enabled.getD true = true ∧
    (spawnScheduler envWorker "t2" cfgWorker).spawned = true ∧
    (spawnScheduler envWorker "t2" cfgWorker).reason = none := by
  refine ⟨by decide, rfl, rfl, by decide, by decide⟩

/-- C9, amended: a disabled descriptor is skipped with reason
`disabled`; an enabled declared-singleton descriptor whose task name
matches the `LIKE '%.scheduler'` pattern is skipped with reason
`already_running` (not an error) when an instance of its task name in
state pending, running or sleeping sits in one of the three hard-coded
lanes (default, obsidian, email); otherwise — non-singleton, or no
active instance found by that query — the task is spawned on its
declared queue; `spawn_all_schedulers` applies this to each discovered
descriptor in order. -/
theorem spawn_scheduler_spec (env : QueueTables) (fresh : String → String)
    (cfg : SchedConfig) :
    (cfg.enabled.getD true = false →
      spawnOne env fresh cfg =
        { spawned := false, reason := some "disabled", task_name := none,
          queue := none, task_id := none }) ∧
    (cfg.enabled.getD true = true → cfg.singleton.getD true = true →
      likeSchedulerPattern cfg.task_name = true →
      (∃ q ∈ schedulerQueues, ∃ rows, env q = some rows ∧ ∃ r ∈ rows,
        r.task_name = cfg.task_name ∧
        (r.state = "pending" ∨ r.state = "running" ∨ r.state = "sleeping")) →
      (spawnOne env fresh cfg).spawned = false ∧
      (spawnOne env fresh cfg).reason = some "already_running") ∧
    (cfg.enabled.getD true = true →
      (cfg.singleton.getD true = false ∨
        schedulerQueues.any (fun q =>
          (((env q).getD []).filter activeSchedRow).any
            (fun r => r.task_name == cfg.task_name)) = false) →
      (spawnOne env fresh cfg).spawned = true ∧
      (spawnOne env fresh cfg).reason = none ∧
      (spawnOne env fresh cfg).task_name = some cfg.task_name ∧
      (spawnOne env fresh cfg).queue = some (cfg.queue.getD "default")) ∧
    (∀ configs, spawnAllSchedulers env fresh configs =
      configs.map (spawnOne env fresh)) := by
  refine ⟨?_, ?_, ?_, fun configs => rfl⟩
  · intro hdis
    unfold spawnOne
    rw [if_pos (by rw [hdis]; simp)]
  · intro hen hsing hlike hact
    have hany : schedulerQueues.any (fun q =>
        (((env q).getD []).filter activeSchedRow).any
          (fun r => r.task_name == cfg.task_name)) = true := by
      obtain ⟨q, hq, rows, hrows, r, hr, hname, hstate⟩ := hact
      rw [List.any_eq_true]
      refine ⟨q, hq, ?_⟩
      rw [List.any_eq_true]
      refine ⟨r, ?_, beq_iff_eq.mpr hname⟩
      rw [List.mem_filter]
      constructor
      · rw [hrows]
        exact hr
      · unfold activeSchedRow
        rw [hname, hlike]
        rcases hstate with h | h | h <;> simp [h]
    have hsome : ((getRunningSchedulers env).find?
        (fun p => p.1 == cfg.task_name)).isSome = true := by
      rw [isSome_find_getRunning]
      exact hany
    obtain ⟨p, hp⟩ := Option.isSome_iff_exists.mp hsome
    unfold spawnOne
    rw [if_neg (by rw [hen]; simp)]
    unfold spawnScheduler
    dsimp only
    rw [hsing, if_pos rfl, hp]
    exact ⟨rfl, rfl⟩
  · intro hen hcase
    unfold spawnOne
    rw [if_neg (by rw [hen]; simp)]
    unfold spawnScheduler
    dsimp only
    cases hb : cfg.singleton.getD true with
    | false =>
      rw [if_neg (by simp)]
      exact ⟨rfl, rfl, rfl, rfl⟩
    | true =>
      have hnone : schedulerQueues.any (fun q =>
          (((env q).getD []).filter activeSchedRow).any
            (fun r => r.task_name == cfg.task_name)) = false := by
        rcases hcase with hs | hn
        · rw [hb] at hs
          exact absurd hs (by simp)
        · exact hn
      rw [if_pos rfl]
      cases hfind : (getRunningSchedulers env).find?
          (fun p => p.1 == cfg.task_name) with
      | some p =>
        have hs : ((getRunningSchedulers env).find?
            (fun p => p.1 == cfg.task_name)).isSome = true := by
          rw [hfind]; rfl
        rw [isSome_find_getRunning, hnone] at hs
        exact absurd hs (by simp)
      | none =>
        exact ⟨rfl, rfl, rfl, rfl⟩

/-- The email lane holding a sleeping `resend.scheduler` instance. -/
def envResend : QueueTables := fun q =>
  if q = "email" then some [⟨"t9", "resend.scheduler", "sleeping"⟩]
  else some []

/-- The resend scheduler descriptor (`SCHEDULER_CONFIG` of
`integrations/resend/scheduler.py`, with its implicit `enabled`
default). -/
def cfgResend : SchedConfig :=
  { task_name := "resend.scheduler", queue := some "email", params := [],
    singleton := some true, enabled := none }

/-- C9, witness: the resend scheduler descriptor against a lane that
already holds a sleeping instance of it. -/
theorem spawn_scheduler_spec_witness :
    (cfgResend.enabled.getD true = true ∧
     cfgResend.singleton.getD true = true ∧
     likeSchedulerPattern cfgResend.task_name = true ∧
     (∃ q ∈ schedulerQueues, ∃ rows, envResend q = some rows ∧
       ∃ r ∈ rows, r.task_name = cfgResend.task_name ∧
         (r.state = "pending" ∨ r.state = "running" ∨ r.state = "sleeping"))) ∧
    ((spawnOne envResend (fun _ => "t-new") cfgResend).spawned = false ∧
     (spawnOne envResend (fun _ => "t-new") cfgResend).reason =
       some "already_running") :=
  ⟨⟨rfl, rfl, by decide,
    ⟨"email", by decide, [⟨"t9", "resend.scheduler", "sleeping"⟩], by decide,
      ⟨"t9", "resend.scheduler", "sleeping"⟩, by decide, rfl,
      Or.inr (Or.inr rfl)⟩⟩,
   (spawn_scheduler_spec envResend (fun _ => "t-new") cfgResend).2.1 rfl rfl
     (by decide)
     ⟨"email", by decide, [⟨"t9", "resend.scheduler", "sleeping"⟩], by decide,
       ⟨"t9", "resend.scheduler", "sleeping"⟩, by decide, rfl,
       Or.inr (Or.inr rfl)⟩⟩

end Substrate
